import Mathlib

/-
Shallow embedding of the HashQueue crate (src/hash_queue.rs, src/errors.rs).

The crate layers a deduplicating persistent queue on top of sled, an ordered
key-value store.  A `HashQueue<T>` owns a sled `Tree` (a named region of the
database) and an in-memory `HashSet<T>`.  Position keys are `i64` values
written as 8-byte big-endian strings, so the store orders entries by the
unsigned reinterpretation of the signed key.

Modelling conventions:
  * bytes are `List Nat`; keys are `Int` restricted to the i64 range, with
    `wrap64` making i64 wrap-around explicit and `u64ofKey` giving the
    unsigned value that big-endian byte order compares by;
  * a sled tree is an association list `List (Int × Bytes)` kept sorted in
    strictly increasing `u64ofKey` order (sled is an ordered map);
  * the whole sled database is a family of named trees; `db.iter()` in Rust
    iterates the default tree, named `__sled__default`, while
    `db.open_tree(name)` yields the tree called `name`;
  * serde/bincode is an external collaborator, modelled as an explicit codec
    record; `natCodec` instantiates it with bincode's fixed-width
    little-endian u64 encoding for concrete computations;
  * each fallible call into sled takes an explicit Boolean saying whether the
    underlying store fails at that call site, mirroring the `Result` the Rust
    code receives there; `POut` distinguishes a normal return, an error
    return, and a process panic (Rust `expect`/`unwrap`).
-/

namespace HashQueueModel

/-- Error type of src/errors.rs (`HashQueueError`); the payloads are the
diagnostic strings. -/
inductive HashQueueError where
  | SledError (message : String)
  | SyncError (message : String)
  | BinCodeError (error : String)
deriving DecidableEq, Repr

/-- Result of calling a method: a normal return, an error return, or a
process panic raised by `expect`/`unwrap` in the Rust code. -/
inductive POut (α : Type) where
  | ok (a : α)
  | err (e : HashQueueError)
  | panic (msg : String)
deriving DecidableEq, Repr

/-- Bytes of a serialized value. -/
abbrev Bytes := List Nat

/-- i64 two's-complement wrap-around: the value in [-2^63, 2^63) congruent
mod 2^64. -/
def wrap64 (z : Int) : Int := (z + 2 ^ 63) % 2 ^ 64 - 2 ^ 63

/-- The unsigned value an i64 key's 8-byte big-endian representation denotes;
lexicographic byte order on keys equals the natural order of this value. -/
def u64ofKey (k : Int) : Nat := (k % 2 ^ 64).toNat

/-- Contents of one sled tree: entries sorted strictly by big-endian key
order. -/
abbrev Entries := List (Int × Bytes)

/-- Sortedness in strictly increasing big-endian key order; every tree the
store hands back satisfies it. -/
def EntriesSorted (t : Entries) : Prop :=
  t.Pairwise (fun a b => u64ofKey a.1 < u64ofKey b.1)

instance (t : Entries) : Decidable (EntriesSorted t) := by
  unfold EntriesSorted; infer_instance

/-- `Tree::insert`: store a value under a key, replacing any entry whose
byte key is equal, keeping the entries in byte-key order. -/
def insEntry (k : Int) (v : Bytes) : Entries → Entries
  | [] => [(k, v)]
  | (k', v') :: rest =>
    if u64ofKey k < u64ofKey k' then (k, v) :: (k', v') :: rest
    else if u64ofKey k = u64ofKey k' then (k, v) :: rest
    else (k', v') :: insEntry k v rest

/-- `Tree::first`: the minimum-key entry, `Err` when the store fails. -/
def treeFirst (t : Entries) (fail : Bool) :
    Except HashQueueError (Option (Int × Bytes)) :=
  if fail then .error (.SledError "first") else .ok t.head?

/-- `Tree::last`: the maximum-key entry, `Err` when the store fails. -/
def treeLast (t : Entries) (fail : Bool) :
    Except HashQueueError (Option (Int × Bytes)) :=
  if fail then .error (.SledError "last") else .ok t.getLast?

/-- `Tree::pop_min`: atomically read and remove the minimum-key entry. -/
def treePopMin (t : Entries) (fail : Bool) :
    Except HashQueueError (Option ((Int × Bytes) × Entries)) :=
  if fail then .error (.SledError "pop_min")
  else .ok (match t with
    | [] => none
    | e :: rest => some (e, rest))

/-- `Tree::pop_max`: atomically read and remove the maximum-key entry. -/
def treePopMax (t : Entries) (fail : Bool) :
    Except HashQueueError (Option ((Int × Bytes) × Entries)) :=
  if fail then .error (.SledError "pop_max")
  else .ok (match t.getLast? with
    | none => none
    | some e => some (e, t.dropLast))

/-- The serde/bincode codec for the stored type `T` (external collaborator):
`bincode::serialize` and `bincode::deserialize`, both fallible. -/
structure Codec (T : Type) where
  serialize : T → Except String Bytes
  deserialize : Bytes → Except String T

/-- A sled database: a family of named trees.  `db.iter()` iterates the
default tree; `db.open_tree(name)` yields the tree called `name`. -/
structure Db where
  trees : List (String × Entries)

/-- sled's name for the default tree. -/
def defaultTreeName : String := "__sled__default"

/-- The contents of the named tree (empty when never written). -/
def Db.getTree (db : Db) (name : String) : Entries :=
  (db.trees.lookup name).getD []

/-- Persist a session's final tree back into the database under its name
(what sled's durability gives the next `open`). -/
def Db.setTree (db : Db) (name : String) (t : Entries) : Db :=
  ⟨(name, t) :: db.trees.filter (fun p => p.1 ≠ name)⟩

/-- The `HashQueue<T>` struct: a sled tree handle and the mirrored
in-memory `HashSet<T>`. -/
structure HashQueue (T : Type) where
  tree : Entries
  set : Finset T

/-- `HashSet::insert`: `true` and the enlarged set when the value was new,
`false` and the unchanged set otherwise. -/
def setInsert {T : Type} [DecidableEq T] (s : Finset T) (v : T) :
    Bool × Finset T :=
  if v ∈ s then (false, s) else (true, insert v s)

/-- `HashSet::remove`: `true` and the shrunk set when the value was present,
`false` and the unchanged set otherwise. -/
def setRemove {T : Type} [DecidableEq T] (s : Finset T) (v : T) :
    Bool × Finset T :=
  if v ∈ s then (true, s.erase v) else (false, s)

variable {T : Type} [DecidableEq T]

/-- The for-loop of `open`: deserialize every iterated value and insert it
into the set, propagating the first deserialization error. -/
def buildSet (c : Codec T) : List (Int × Bytes) → Finset T →
    Except HashQueueError (Finset T)
  | [], s => .ok s
  | (_, v) :: rest, s =>
    match c.deserialize v with
    | .error e => .error (.BinCodeError e)
    | .ok item => buildSet c rest (insert item s)

/-- `HashQueue::open(path, name)` (Lean reserves the name `open`).  The model
takes the database found at `path` directly.  Note the source: the set is
built from `db.iter()` — the default tree — while the queue's tree handle is
`db.open_tree(name)`. -/
def openQueue (c : Codec T) (db : Db) (name : String)
    (failOpen failIter failOpenTree : Bool) :
    Except HashQueueError (HashQueue T) :=
  if failOpen then .error (.SledError "sled::open") else
  match (if failIter then (.error (.SledError "iter") :
      Except HashQueueError (List (Int × Bytes)))
    else .ok (db.getTree defaultTreeName)) with
  | .error e => .error e
  | .ok collected_iter =>
    if collected_iter.isEmpty then
      if failOpenTree then .error (.SledError "open_tree")
      else .ok ⟨db.getTree name, (∅ : Finset T)⟩
    else
      match buildSet c collected_iter ∅ with
      | .error e => .error e
      | .ok s =>
        if failOpenTree then .error (.SledError "open_tree")
        else .ok ⟨db.getTree name, s⟩

/-- `HashQueue::is_empty`: cardinality test on the in-memory set only. -/
def is_empty (q : HashQueue T) : Bool := q.set = ∅

/-- `HashQueue::back_index`: one past the last key, `0` when `tree.last()`
yields no entry (also when it yields `Err`: the `if let Ok(Some(..))` falls
through).  `k + 1i64` wraps in two's complement. -/
def back_index (q : HashQueue T) (failLast : Bool) : Int :=
  match treeLast q.tree failLast with
  | .ok (some (key, _)) => wrap64 (key + 1)
  | _ => (0 : Int)

/-- `HashQueue::front`: peek the minimum-key entry; `Err` from
`tree.first()` falls through the `if let` to `Ok(None)`. -/
def front (c : Codec T) (q : HashQueue T) (failFirst : Bool) :
    Except HashQueueError (Option T) :=
  match treeFirst q.tree failFirst with
  | .ok (some (_, val)) =>
    match c.deserialize val with
    | .ok v => .ok (some v)
    | .error e => .error (.BinCodeError e)
  | _ => .ok none

/-- `HashQueue::back`: peek the maximum-key entry; `Err` from `tree.last()`
falls through the `if let` to `Ok(None)`. -/
def back (c : Codec T) (q : HashQueue T) (failLast : Bool) :
    Except HashQueueError (Option T) :=
  match treeLast q.tree failLast with
  | .ok (some (_, val)) =>
    match c.deserialize val with
    | .ok v => .ok (some v)
    | .error e => .error (.BinCodeError e)
  | _ => .ok none

/-- `HashQueue::pop_front`.  `pop_min` has already removed the entry when
the set removal is attempted; when the removal fails the method returns
`Ok(None)` with the entry gone.  The flush's `unwrap` panics on failure. -/
def pop_front (c : Codec T) (q : HashQueue T) (failPop failFlush : Bool) :
    POut (Option T) × HashQueue T :=
  match treePopMin q.tree failPop with
  | .ok (some ((_key, val), tree')) =>
    match c.deserialize val with
    | .error e => (.err (.BinCodeError e), ⟨tree', q.set⟩)
    | .ok data =>
      match setRemove q.set data with
      | (true, set') =>
        if failFlush then (.panic "called Result::unwrap on an Err value",
          ⟨tree', set'⟩)
        else (.ok (some data), ⟨tree', set'⟩)
      | (false, _) => (.ok none, ⟨tree', q.set⟩)
  | _ => (.ok none, q)

/-- `HashQueue::pop_back`.  Symmetric to `pop_front` except that a failed
set removal returns `Err(SyncError { message: "pop_back" })`. -/
def pop_back (c : Codec T) (q : HashQueue T) (failPop failFlush : Bool) :
    POut (Option T) × HashQueue T :=
  match treePopMax q.tree failPop with
  | .ok (some ((_key, val), tree')) =>
    match c.deserialize val with
    | .error e => (.err (.BinCodeError e), ⟨tree', q.set⟩)
    | .ok data =>
      match setRemove q.set data with
      | (true, set') =>
        if failFlush then (.panic "called Result::unwrap on an Err value",
          ⟨tree', set'⟩)
        else (.ok (some data), ⟨tree', set'⟩)
      | (false, _) => (.err (.SyncError "pop_back"), ⟨tree', q.set⟩)
  | _ => (.ok none, q)

/-- `HashQueue::insert_at`: set insert first; when the value is new,
serialize (`?` propagates a codec error, the set keeps the value) and write
to the tree (`expect` panics on a store failure). -/
def insert_at (c : Codec T) (q : HashQueue T) (value : T) (n : Int)
    (failInsert : Bool) : POut Bool × HashQueue T :=
  match setInsert q.set value with
  | (true, set') =>
    match c.serialize value with
    | .error e => (.err (.BinCodeError e), ⟨q.tree, set'⟩)
    | .ok bytes =>
      if failInsert then (.panic "insert_at: failure to insert",
        ⟨q.tree, set'⟩)
      else (.ok true, ⟨insEntry n bytes q.tree, set'⟩)
  | (false, _) => (.ok false, q)

/-- `HashQueue::push_back`: compute `back_index`, run `insert_at` (binding
its `Result`, not propagating it), then flush with `expect` — the flush runs
even when `insert_at` returned an error, and its failure panics. -/
def push_back (c : Codec T) (q : HashQueue T) (value : T)
    (failLast failInsert failFlush : Bool) : POut Bool × HashQueue T :=
  match insert_at c q value (back_index q failLast) failInsert with
  | (.panic m, q') => (.panic m, q')
  | (rv, q') =>
    if failFlush then (.panic "push_back: failure to flush tree", q')
    else (rv, q')

/-- `HashQueue::clear`: clear the tree (`expect` panics on failure), then
clear the set. -/
def clear (q : HashQueue T) (failClear : Bool) : POut Unit × HashQueue T :=
  if failClear then (.panic "clear: failure to clear tree", q)
  else (.ok (), ⟨[], (∅ : Finset T)⟩)

/-- bincode's fixed-width little-endian encoding of a u64 (8 bytes). -/
def natLE8 (n : Nat) : Bytes := (List.range 8).map (fun i => n / 256 ^ i % 256)

/-- Decode 8 little-endian bytes back to a natural number. -/
def natFromLE8 (bs : Bytes) : Nat :=
  (List.range 8).foldr (fun i acc => acc * 256 + (bs.getD i 0 % 256)) 0

/-- The bincode codec at `T = u64`: serialization succeeds exactly on the
u64 range; deserialization demands exactly 8 bytes. -/
def natCodec : Codec Nat where
  serialize n := if n < 2 ^ 64 then .ok (natLE8 n) else .error "u64 range"
  deserialize bs := if bs.length = 8 then .ok (natFromLE8 bs)
    else .error "invalid length"

/- Decidable equality for `Except`, so closed statements about method
results can be settled by `decide`. -/
instance {ε α : Type} [DecidableEq ε] [DecidableEq α] :
    DecidableEq (Except ε α) := fun x y =>
  match x, y with
  | .error a, .error b =>
    if h : a = b then isTrue (by rw [h]) else isFalse (by simp [h])
  | .error _, .ok _ => isFalse (by simp)
  | .ok _, .error _ => isFalse (by simp)
  | .ok a, .ok b =>
    if h : a = b then isTrue (by rw [h]) else isFalse (by simp [h])

instance {T : Type} [DecidableEq T] : DecidableEq (HashQueue T) :=
  fun a b =>
    if h : a.tree = b.tree ∧ a.set = b.set then
      isTrue (by cases a; cases b; simp_all)
    else isFalse (by cases a; cases b; simp_all)

/- Arithmetic facts about the key encoding. -/

theorem wrap64_eq_of_range {z : Int} (h0 : 0 ≤ z) (h1 : z < 2 ^ 63) :
    wrap64 z = z := by
  unfold wrap64
  rw [Int.emod_eq_of_lt (by omega) (by norm_num; omega)]
  omega

theorem u64ofKey_of_range {k : Int} (h0 : 0 ≤ k) (h1 : k < 2 ^ 64) :
    u64ofKey k = k.toNat := by
  unfold u64ofKey
  rw [Int.emod_eq_of_lt h0 h1]

/-- In a tree sorted by big-endian key order, the `last` entry's key is
byte-maximal. -/
theorem u64_le_of_getLast :
    ∀ (l : Entries), EntriesSorted l → ∀ x, l.getLast? = some x →
      ∀ e ∈ l, u64ofKey e.1 ≤ u64ofKey x.1
  | [], _, x, hx => by simp at hx
  | [a], _, x, hx => by
    simp only [List.getLast?_singleton, Option.some.injEq] at hx
    subst hx
    intro e he
    simp only [List.mem_singleton] at he
    subst he
    exact le_refl _
  | a :: b :: rest, hs, x, hx => by
    rw [List.getLast?_cons_cons] at hx
    have hs' : EntriesSorted (b :: rest) := (List.pairwise_cons.mp hs).2
    intro e he
    rcases List.mem_cons.mp he with rfl | he'
    · have hxmem : x ∈ b :: rest := List.mem_of_getLast?_eq_some hx
      exact le_of_lt ((List.pairwise_cons.mp hs).1 x hxmem)
    · exact u64_le_of_getLast (b :: rest) hs' x hx e he'

/- Concrete states used by the closed theorems below. -/

/-- A desynchronized state: the tree holds one entry whose value
deserializes to `5`, but the in-memory set is empty. -/
def qDesyncEx : HashQueue Nat := ⟨[((0 : Int), natLE8 5)], (∅ : Finset Nat)⟩

/-- C1: in a state whose durable region is non-empty and whose extracted
extreme entry deserializes to a value absent from the in-memory set, the
claim says `pop_front` and `pop_back` both return a `SyncError` naming the
detecting operation and never the empty outcome.  On the concrete
desynchronized state the code diverges: `pop_back` does return
`SyncError("pop_back")`, but `pop_front` returns the empty outcome
`Ok(None)` (with the entry already removed). -/
theorem pop_desync_divergence :
    pop_front natCodec qDesyncEx false false
      = (POut.ok none, ⟨[], (∅ : Finset Nat)⟩)
    ∧ pop_back natCodec qDesyncEx false false
      = (POut.err (HashQueueError.SyncError "pop_back"),
         ⟨[], (∅ : Finset Nat)⟩) := by
  constructor <;> decide

/-- C10: whenever the minimum entry of the (sorted) durable region
deserializes to a value not present in the in-memory set, `pop_front`
returns the empty outcome `Ok(None)` even though the minimum entry has
already been removed from the durable region — the state is mutated, the
entry permanently discarded, and the set untouched. -/
theorem pop_front_desync_discards_entry {T : Type} [DecidableEq T]
    (c : Codec T) (q : HashQueue T) (k : Int) (bv : Bytes) (rest : Entries)
    (v : T) (htree : q.tree = (k, bv) :: rest)
    (hsorted : EntriesSorted q.tree)
    (hdes : c.deserialize bv = .ok v) (hmem : v ∉ q.set) :
    pop_front c q false false = (POut.ok none, ⟨rest, q.set⟩)
    ∧ (∀ e ∈ q.tree, u64ofKey k ≤ u64ofKey e.1) := by
  constructor
  · unfold pop_front treePopMin setRemove
    rw [htree]
    simp [hdes, hmem]
  · intro e he
    rw [htree] at he hsorted
    rcases List.mem_cons.mp he with rfl | he'
    · exact le_refl _
    · exact le_of_lt ((List.pairwise_cons.mp hsorted).1 e he')

/-- Witness for `pop_front_desync_discards_entry` at the concrete
desynchronized state. -/
theorem pop_front_desync_discards_entry_witness :
    pop_front natCodec qDesyncEx false false
      = (POut.ok none, ⟨[], qDesyncEx.set⟩)
    ∧ (∀ e ∈ qDesyncEx.tree, u64ofKey 0 ≤ u64ofKey e.1) :=
  pop_front_desync_discards_entry natCodec qDesyncEx 0 (natLE8 5) [] 5
    rfl (by decide) (by decide) (by decide)

/-- A database whose named region `test` holds one entry (value `1`) while
the default tree is empty. -/
def dbNamedOnlyEx : Db := ⟨[("test", [((0 : Int), natLE8 1)])]⟩

/-- C2: the claim says a successful `open(path, name)` leaves the in-memory
set equal to the deserialized contents of the named region the queue's
operations act on.  On the concrete database whose region `test` holds the
value `1` (and whose default tree is empty), `open` succeeds with an empty
set, while the named region it hands the queue deserializes to `{1}`: the
set is built from `db.iter()` — the default tree — not from
`db.open_tree(name)`. -/
theorem open_reads_default_tree_not_named_region :
    openQueue natCodec dbNamedOnlyEx "test" false false false
      = .ok ⟨[((0 : Int), natLE8 1)], (∅ : Finset Nat)⟩
    ∧ buildSet natCodec (dbNamedOnlyEx.getTree "test") ∅
      = .ok ({1} : Finset Nat)
    ∧ (∅ : Finset Nat) ≠ ({1} : Finset Nat) := by
  refine ⟨by decide, by decide, by decide⟩

/-- The queue state after `push_back(1)` on a freshly opened empty queue. -/
def qAfterPush1Ex : HashQueue Nat :=
  (push_back natCodec ⟨[], (∅ : Finset Nat)⟩ 1 false false false).2

/-- C3: the claim says closing and re-opening (same path and name) after
pushing a set of values reconstructs the same in-memory set and preserves
the behaviour of `front`/`back`/`pop_front`/`pop_back`.  Concretely: open an
empty database, `push_back 1` (which succeeds and stores the value in the
named region), persist, and re-open.  The re-opened set is `∅`, not `{1}`,
and `pop_front` now returns the empty outcome instead of `Some 1`. -/
theorem reopen_after_push_loses_membership :
    openQueue natCodec (⟨[]⟩ : Db) "test" false false false
      = .ok ⟨[], (∅ : Finset Nat)⟩
    ∧ (push_back natCodec ⟨[], (∅ : Finset Nat)⟩ 1 false false false).1
      = POut.ok true
    ∧ qAfterPush1Ex.set = ({1} : Finset Nat)
    ∧ openQueue natCodec ((⟨[]⟩ : Db).setTree "test" qAfterPush1Ex.tree)
        "test" false false false
      = .ok ⟨qAfterPush1Ex.tree, (∅ : Finset Nat)⟩
    ∧ (pop_front natCodec qAfterPush1Ex false false).1 = POut.ok (some 1)
    ∧ (pop_front natCodec ⟨qAfterPush1Ex.tree, (∅ : Finset Nat)⟩
        false false).1 = POut.ok none := by
  refine ⟨by decide, by decide, by decide, by decide, by decide, by decide⟩

/-- The state after `push_back 1; push_back 2` from an empty queue:
keys `0` and `1`. -/
def qTwoPushesEx : HashQueue Nat :=
  (push_back natCodec
    (push_back natCodec ⟨[], (∅ : Finset Nat)⟩ 1 false false false).2
    2 false false false).2

/-- The previous state after `pop_back` (which removes key `1`). -/
def qAfterPopBackEx : HashQueue Nat :=
  (pop_back natCodec qTwoPushesEx false false).2

/-- C4 counterexample: the claim also says no position key ever used earlier
in the session is assigned again.  In the session
`push_back 1; push_back 2; pop_back; push_back 3` starting from an empty
queue, key `1` is assigned to the value `2`, freed by `pop_back`, and then
assigned again to the value `3`. -/
theorem push_after_pop_back_reuses_key :
    qTwoPushesEx.tree.map Prod.fst = [(0 : Int), 1]
    ∧ (pop_back natCodec qTwoPushesEx false false).1 = POut.ok (some 2)
    ∧ qAfterPopBackEx.tree.map Prod.fst = [(0 : Int)]
    ∧ back_index qAfterPopBackEx false = (1 : Int)
    ∧ (push_back natCodec qAfterPopBackEx 3 false false false).2.tree.map
        Prod.fst = [(0 : Int), 1] := by
  refine ⟨by decide, by decide, by decide, by decide, by decide⟩

/-- Keys of entries written by this queue within a session: i64 values that
are non-negative and small enough that `k + 1` does not wrap. -/
def KeysInRange (t : Entries) : Prop :=
  ∀ e ∈ t, 0 ≤ e.1 ∧ e.1 < 2 ^ 63 - 1

instance (t : Entries) : Decidable (KeysInRange t) := by
  unfold KeysInRange; infer_instance

/-- C4 as amended: each successful non-duplicate `push_back` stores its
value under the position key `back_index` — which is `0` when the durable
region is empty and strictly greater than every position key present at the
time of the push otherwise.  (The claim's further conjunct, that a key used
earlier in the session is never assigned again, is dropped: `pop_back`
frees the maximum key and the next push re-assigns it, as
`push_after_pop_back_reuses_key` shows.) -/
theorem push_back_key_exceeds_all_present {T : Type} [DecidableEq T]
    (c : Codec T) (q : HashQueue T) (v : T) (bv : Bytes)
    (hsorted : EntriesSorted q.tree) (hrange : KeysInRange q.tree)
    (hv : v ∉ q.set) (hser : c.serialize v = .ok bv) :
    push_back c q v false false false
      = (POut.ok true,
         ⟨insEntry (back_index q false) bv q.tree, insert v q.set⟩)
    ∧ (q.tree = [] → back_index q false = 0)
    ∧ (∀ e ∈ q.tree, e.1 < back_index q false) := by
  refine ⟨?_, ?_, ?_⟩
  · unfold push_back insert_at setInsert
    simp [hv, hser]
  · intro h
    unfold back_index treeLast
    rw [h]
    simp
  · intro e he
    have hne : q.tree ≠ [] := by
      intro h; rw [h] at he; exact List.not_mem_nil e he
    obtain ⟨x, hx⟩ := Option.ne_none_iff_exists'.mp
      (mt List.getLast?_eq_none_iff.mp hne)
    have hxmem : x ∈ q.tree := List.mem_of_getLast?_eq_some hx
    obtain ⟨hx0, hx1⟩ := hrange x hxmem
    obtain ⟨he0, he1⟩ := hrange e he
    have hle : u64ofKey e.1 ≤ u64ofKey x.1 :=
      u64_le_of_getLast q.tree hsorted x hx e he
    rw [u64ofKey_of_range he0 (by omega),
        u64ofKey_of_range hx0 (by omega)] at hle
    have hlex : e.1 ≤ x.1 := by omega
    have hbi : back_index q false = x.1 + 1 := by
      unfold back_index treeLast
      simp only [if_neg Bool.false_ne_true, reduceIte, hx]
      exact wrap64_eq_of_range (by omega) (by omega)
    omega

/-- Witness for `push_back_key_exceeds_all_present`: pushing `2` onto the
one-element queue holding `1` under key `0` stores it under key `1`. -/
theorem push_back_key_exceeds_all_present_witness :
    push_back natCodec (⟨[((0 : Int), natLE8 1)], ({1} : Finset Nat)⟩) 2
        false false false
      = (POut.ok true,
         ⟨insEntry
            (back_index (⟨[((0 : Int), natLE8 1)], ({1} : Finset Nat)⟩ :
              HashQueue Nat) false) (natLE8 2) [((0 : Int), natLE8 1)],
          insert 2 ({1} : Finset Nat)⟩)
    ∧ (([((0 : Int), natLE8 1)] : Entries) = [] →
        back_index (⟨[((0 : Int), natLE8 1)], ({1} : Finset Nat)⟩ :
          HashQueue Nat) false = 0)
    ∧ (∀ e ∈ ([((0 : Int), natLE8 1)] : Entries),
        e.1 < back_index (⟨[((0 : Int), natLE8 1)], ({1} : Finset Nat)⟩ :
          HashQueue Nat) false) :=
  push_back_key_exceeds_all_present natCodec
    ⟨[((0 : Int), natLE8 1)], ({1} : Finset Nat)⟩ 2 (natLE8 2)
    (by decide) (by decide) (by decide) (by decide)

/-- C5: pushing a value already present in the in-memory set returns
`false` and leaves the entire queue state — durable region and set, hence
the element count — unchanged; no durable write occurs. -/
theorem push_back_duplicate_is_noop {T : Type} [DecidableEq T]
    (c : Codec T) (q : HashQueue T) (v : T) (h : v ∈ q.set) :
    push_back c q v false false false = (POut.ok false, q) := by
  unfold push_back insert_at setInsert
  simp [h]

/-- Witness for `push_back_duplicate_is_noop`: pushing `1` again onto the
queue already holding `1`. -/
theorem push_back_duplicate_is_noop_witness :
    push_back natCodec (⟨[((0 : Int), natLE8 1)], ({1} : Finset Nat)⟩) 1
        false false false
      = (POut.ok false, ⟨[((0 : Int), natLE8 1)], ({1} : Finset Nat)⟩) :=
  push_back_duplicate_is_noop natCodec
    ⟨[((0 : Int), natLE8 1)], ({1} : Finset Nat)⟩ 1 (by decide)

/-- C6 counterexample: the claim says a failing durable write makes
`push_back` return a `StoreError`.  Concretely, pushing the new value `5`
onto an empty queue while the store's insert fails makes `push_back` panic
(`expect`), which is not an error return — and the value is left in the
in-memory set. -/
theorem push_back_store_failure_panics :
    push_back natCodec (⟨[], (∅ : Finset Nat)⟩ : HashQueue Nat) 5
        false true false
      = (POut.panic "insert_at: failure to insert",
         ⟨[], ({5} : Finset Nat)⟩) := by
  decide

/-- C6 as amended: for a newly inserted value, a failing durable write or a
failing durability flush makes `push_back` panic (abort) — it neither
silently continues nor returns success, but it does not return a
`StoreError` either — while a failing serialization is returned to the
caller as a `CodecError` (with the value already in the in-memory set). -/
theorem push_back_failure_modes {T : Type} [DecidableEq T]
    (c : Codec T) (q : HashQueue T) (v : T) (hv : v ∉ q.set) :
    (∀ bv, c.serialize v = .ok bv →
      (push_back c q v false true false).1
          = POut.panic "insert_at: failure to insert"
      ∧ (push_back c q v false false true).1
          = POut.panic "push_back: failure to flush tree")
    ∧ (∀ e, c.serialize v = .error e →
        push_back c q v false false false
          = (POut.err (HashQueueError.BinCodeError e),
             ⟨q.tree, insert v q.set⟩)) := by
  constructor
  · intro bv hser
    constructor <;>
      · unfold push_back insert_at setInsert
        simp [hv, hser]
  · intro e hser
    unfold push_back insert_at setInsert
    simp [hv, hser]

/-- Witness for `push_back_failure_modes`: the write/flush parts at the new
value `5`, and the serialization part at `2 ^ 64`, which is outside the u64
range of `natCodec`. -/
theorem push_back_failure_modes_witness :
    ((push_back natCodec (⟨[], (∅ : Finset Nat)⟩ : HashQueue Nat) 5
        false true false).1 = POut.panic "insert_at: failure to insert"
    ∧ (push_back natCodec (⟨[], (∅ : Finset Nat)⟩ : HashQueue Nat) 5
        false false true).1 = POut.panic "push_back: failure to flush tree")
    ∧ push_back natCodec (⟨[], (∅ : Finset Nat)⟩ : HashQueue Nat) (2 ^ 64)
        false false false
      = (POut.err (HashQueueError.BinCodeError "u64 range"),
         ⟨[], ({2 ^ 64} : Finset Nat)⟩) :=
  ⟨(push_back_failure_modes natCodec ⟨[], (∅ : Finset Nat)⟩ 5
      (by decide)).1 (natLE8 5) (by decide),
   (push_back_failure_modes natCodec ⟨[], (∅ : Finset Nat)⟩ (2 ^ 64)
      (by decide)).2 "u64 range" (by decide)⟩

/-- A healthy one-element queue: the value `5` stored under key `0` and
mirrored in the set. -/
def qOneEx : HashQueue Nat := ⟨[((0 : Int), natLE8 5)], ({5} : Finset Nat)⟩

/-- C7 counterexample: the claim says every underlying store failure is
returned to the caller as an error, `None` being reserved for a genuinely
absent entry.  Concretely, on a non-empty queue whose store fails the
`first()` read, `front` swallows the failure and returns the empty outcome
`Ok(None)` (the same call succeeds with `Some 5` when the store works). -/
theorem front_swallows_store_error :
    qOneEx.tree ≠ []
    ∧ front natCodec qOneEx true = .ok none
    ∧ front natCodec qOneEx false = .ok (some 5) := by
  refine ⟨by decide, by decide, by decide⟩

/-- C7 as amended: `open` returns every store failure (the sled open, the
iteration, and `open_tree`) and every deserialization failure to the caller
as an error, and the read paths of `front`, `back`, `pop_front` and
`pop_back` return deserialization failures as errors; but the
`if let Ok(..)` patterns of `front`, `back`, `pop_front` and `pop_back`
absorb a store failure into the empty outcome `Ok(None)`, and a failing
durable write (`insert`), a failing flush (after a push, or after a
successful pop), or a failing `clear` causes a panic rather than an error
return. -/
theorem error_propagation_actual {T : Type} [DecidableEq T]
    (c : Codec T) (q : HashQueue T) (db : Db) (name : String) :
    openQueue (T := T) c db name true false false
      = .error (.SledError "sled::open")
    ∧ openQueue (T := T) c db name false true false
      = .error (.SledError "iter")
    ∧ (∀ s : Finset T, buildSet c (db.getTree defaultTreeName) ∅ = .ok s →
        openQueue (T := T) c db name false false true
          = .error (.SledError "open_tree"))
    ∧ (∀ k bv rest e, db.getTree defaultTreeName = (k, bv) :: rest →
        c.deserialize bv = .error e →
        openQueue (T := T) c db name false false false
          = .error (.BinCodeError e))
    ∧ front c q true = .ok none
    ∧ back c q true = .ok none
    ∧ pop_front c q true false = (POut.ok none, q)
    ∧ pop_back c q true false = (POut.ok none, q)
    ∧ (∀ k bv rest e, q.tree = (k, bv) :: rest →
        c.deserialize bv = .error e →
        front c q false = .error (.BinCodeError e)
        ∧ (pop_front c q false false).1 = POut.err (.BinCodeError e))
    ∧ (∀ k bv e, q.tree.getLast? = some (k, bv) →
        c.deserialize bv = .error e →
        back c q false = .error (.BinCodeError e)
        ∧ (pop_back c q false false).1 = POut.err (.BinCodeError e))
    ∧ (∀ v bv, v ∉ q.set → c.serialize v = .ok bv →
        (push_back c q v false true false).1
          = POut.panic "insert_at: failure to insert")
    ∧ (∀ v, (push_back c q v false false true).1
        = POut.panic "push_back: failure to flush tree")
    ∧ (∀ k bv rest v, q.tree = (k, bv) :: rest →
        c.deserialize bv = .ok v → v ∈ q.set →
        (pop_front c q false true).1
          = POut.panic "called Result::unwrap on an Err value")
    ∧ (∀ k bv v, q.tree.getLast? = some (k, bv) →
        c.deserialize bv = .ok v → v ∈ q.set →
        (pop_back c q false true).1
          = POut.panic "called Result::unwrap on an Err value")
    ∧ clear q true = (POut.panic "clear: failure to clear tree", q) := by
  refine ⟨?_, ?_, ?_, ?_, ?_, ?_, ?_, ?_, ?_, ?_, ?_, ?_, ?_, ?_, ?_⟩
  · unfold openQueue
    simp
  · unfold openQueue
    simp
  · intro s hbs
    unfold openQueue
    by_cases hemp : (db.getTree defaultTreeName).isEmpty <;>
      simp [hemp, hbs]
  · intro k bv rest e hdt hdes
    simp [openQueue, buildSet, hdt, hdes]
  · unfold front treeFirst
    simp
  · unfold back treeLast
    simp
  · unfold pop_front treePopMin
    simp
  · unfold pop_back treePopMax
    simp
  · intro k bv rest e htree hdes
    constructor
    · unfold front treeFirst
      rw [htree]
      simp [hdes]
    · unfold pop_front treePopMin
      rw [htree]
      simp [hdes]
  · intro k bv e hlast hdes
    constructor
    · unfold back treeLast
      simp [hlast, hdes]
    · unfold pop_back treePopMax
      simp [hlast, hdes]
  · intro v bv hv hser
    unfold push_back insert_at setInsert
    simp [hv, hser]
  · intro v
    unfold push_back insert_at setInsert
    by_cases hm : v ∈ q.set
    · simp [hm]
    · cases hser : c.serialize v <;> simp [hm, hser]
  · intro k bv rest v htree hdes hmem
    unfold pop_front treePopMin setRemove
    rw [htree]
    simp [hdes, hmem]
  · intro k bv v hlast hdes hmem
    unfold pop_back treePopMax setRemove
    simp [hlast, hdes, hmem]
  · unfold clear
    simp

/-- Witness for `error_propagation_actual`: each hypothesis-bearing
conjunct instantiated concretely under `natCodec` — a queue and a database
whose single entry holds an undecodable empty byte string for the
codec-error conjuncts, an empty database for the `open_tree` conjunct, and
the healthy one-element queue `qOneEx` for the flush-panic conjuncts. -/
theorem error_propagation_actual_witness :
    openQueue (T := Nat) natCodec (⟨[]⟩ : Db) "test" false false true
      = .error (.SledError "open_tree")
    ∧ openQueue (T := Nat) natCodec
        (⟨[(defaultTreeName, [((0 : Int), [])])]⟩ : Db) "test"
        false false false = .error (.BinCodeError "invalid length")
    ∧ front natCodec (⟨[((0 : Int), [])], (∅ : Finset Nat)⟩ : HashQueue Nat)
        false = .error (.BinCodeError "invalid length")
    ∧ (pop_front natCodec
        (⟨[((0 : Int), [])], (∅ : Finset Nat)⟩ : HashQueue Nat)
        false false).1 = POut.err (.BinCodeError "invalid length")
    ∧ back natCodec (⟨[((0 : Int), [])], (∅ : Finset Nat)⟩ : HashQueue Nat)
        false = .error (.BinCodeError "invalid length")
    ∧ (pop_back natCodec
        (⟨[((0 : Int), [])], (∅ : Finset Nat)⟩ : HashQueue Nat)
        false false).1 = POut.err (.BinCodeError "invalid length")
    ∧ (push_back natCodec
        (⟨[((0 : Int), [])], (∅ : Finset Nat)⟩ : HashQueue Nat) 7
        false true false).1 = POut.panic "insert_at: failure to insert"
    ∧ (push_back natCodec qOneEx 7 false false true).1
        = POut.panic "push_back: failure to flush tree"
    ∧ (pop_front natCodec qOneEx false true).1
        = POut.panic "called Result::unwrap on an Err value"
    ∧ (pop_back natCodec qOneEx false true).1
        = POut.panic "called Result::unwrap on an Err value"
    ∧ front natCodec qOneEx true = .ok none := by
  obtain ⟨a1, a2, a3, a4, a5, a6, a7, a8, a9, a10, a11, a12, a13, a14,
      a15⟩ :=
    error_propagation_actual natCodec
      (⟨[((0 : Int), [])], (∅ : Finset Nat)⟩ : HashQueue Nat)
      (⟨[(defaultTreeName, [((0 : Int), [])])]⟩ : Db) "test"
  obtain ⟨b1, b2, b3, b4, b5, b6, b7, b8, b9, b10, b11, b12, b13, b14,
      b15⟩ :=
    error_propagation_actual natCodec qOneEx (⟨[]⟩ : Db) "test"
  exact ⟨b3 ∅ (by decide),
    a4 0 [] [] "invalid length" (by decide) (by decide),
    (a9 0 [] [] "invalid length" (by decide) (by decide)).1,
    (a9 0 [] [] "invalid length" (by decide) (by decide)).2,
    (a10 0 [] "invalid length" (by decide) (by decide)).1,
    (a10 0 [] "invalid length" (by decide) (by decide)).2,
    a11 7 (natLE8 7) (by decide) (by decide),
    b12 7,
    b13 0 (natLE8 5) [] 5 (by decide) (by decide) (by decide),
    b14 0 (natLE8 5) 5 (by decide) (by decide) (by decide),
    b5⟩

/-- C8: pushing three pairwise-distinct values `a`, `b`, `d` in that order
onto a freshly opened empty queue stores them under keys `0`, `1`, `2`, and
three successive `pop_front` calls then return `Some a`, `Some b`, `Some d`
in that order (the codec hypotheses say each value serializes and
round-trips, as serde/bincode guarantees). -/
theorem fifo_push_pop_order {T : Type} [DecidableEq T]
    (c : Codec T) (name : String) (a b d : T) (ba bb bd : Bytes)
    (hab : a ≠ b) (had : a ≠ d) (hbd : b ≠ d)
    (hsa : c.serialize a = .ok ba) (hda : c.deserialize ba = .ok a)
    (hsb : c.serialize b = .ok bb) (hdb : c.deserialize bb = .ok b)
    (hsd : c.serialize d = .ok bd) (hdd : c.deserialize bd = .ok d) :
    openQueue (T := T) c (⟨[]⟩ : Db) name false false false
      = .ok ⟨[], (∅ : Finset T)⟩
    ∧ push_back c ⟨[], ∅⟩ a false false false
      = (POut.ok true, ⟨[((0 : Int), ba)], {a}⟩)
    ∧ push_back c ⟨[((0 : Int), ba)], {a}⟩ b false false false
      = (POut.ok true, ⟨[((0 : Int), ba), ((1 : Int), bb)], insert b {a}⟩)
    ∧ push_back c ⟨[((0 : Int), ba), ((1 : Int), bb)], insert b {a}⟩ d
        false false false
      = (POut.ok true,
         ⟨[((0 : Int), ba), ((1 : Int), bb), ((2 : Int), bd)],
          insert d (insert b {a})⟩)
    ∧ pop_front c
        ⟨[((0 : Int), ba), ((1 : Int), bb), ((2 : Int), bd)],
         insert d (insert b {a})⟩ false false
      = (POut.ok (some a),
         ⟨[((1 : Int), bb), ((2 : Int), bd)],
          Finset.erase (insert d (insert b {a})) a⟩)
    ∧ pop_front c
        ⟨[((1 : Int), bb), ((2 : Int), bd)],
         Finset.erase (insert d (insert b {a})) a⟩ false false
      = (POut.ok (some b),
         ⟨[((2 : Int), bd)],
          (Finset.erase (insert d (insert b {a})) a).erase b⟩)
    ∧ pop_front c
        ⟨[((2 : Int), bd)],
         (Finset.erase (insert d (insert b {a})) a).erase b⟩ false false
      = (POut.ok (some d),
         ⟨[],
          ((Finset.erase (insert d (insert b {a})) a).erase b).erase d⟩) := by
  have hu01 : u64ofKey 1 < u64ofKey 0 ↔ False := by decide
  have hu01' : u64ofKey 1 = u64ofKey 0 ↔ False := by decide
  have hu20 : u64ofKey 2 < u64ofKey 0 ↔ False := by decide
  have hu20' : u64ofKey 2 = u64ofKey 0 ↔ False := by decide
  have hu21 : u64ofKey 2 < u64ofKey 1 ↔ False := by decide
  have hu21' : u64ofKey 2 = u64ofKey 1 ↔ False := by decide
  have hw1 : wrap64 1 = 1 := by decide
  have hw2 : wrap64 2 = 2 := by decide
  refine ⟨?_, ?_, ?_, ?_, ?_, ?_, ?_⟩
  · simp [openQueue, Db.getTree]
  · simp [push_back, insert_at, setInsert, back_index, treeLast, insEntry,
      hsa]
  · simp [push_back, insert_at, setInsert, back_index, treeLast, insEntry,
      hsb, hw1, hu01, hu01', Ne.symm hab]
  · simp [push_back, insert_at, setInsert, back_index, treeLast, insEntry,
      hsd, hw1, hw2, hu20, hu20', hu21, hu21', Ne.symm had, Ne.symm hbd]
  · simp [pop_front, treePopMin, setRemove, hda]
  · simp [pop_front, treePopMin, setRemove, hdb, Finset.mem_erase,
      Ne.symm hab]
  · simp [pop_front, treePopMin, setRemove, hdd, Finset.mem_erase,
      Ne.symm had, Ne.symm hbd]

/-- Witness for `fifo_push_pop_order`: the values `1`, `2`, `3` under the
concrete u64 bincode codec. -/
theorem fifo_push_pop_order_witness :
    openQueue (T := Nat) natCodec (⟨[]⟩ : Db) "test" false false false
      = .ok ⟨[], (∅ : Finset Nat)⟩
    ∧ push_back natCodec (⟨[], ∅⟩ : HashQueue Nat) 1 false false false
      = (POut.ok true, ⟨[((0 : Int), natLE8 1)], {1}⟩)
    ∧ push_back natCodec (⟨[((0 : Int), natLE8 1)], {1}⟩ : HashQueue Nat) 2
        false false false
      = (POut.ok true,
         ⟨[((0 : Int), natLE8 1), ((1 : Int), natLE8 2)], insert 2 {1}⟩)
    ∧ push_back natCodec
        (⟨[((0 : Int), natLE8 1), ((1 : Int), natLE8 2)],
          insert 2 {1}⟩ : HashQueue Nat) 3 false false false
      = (POut.ok true,
         ⟨[((0 : Int), natLE8 1), ((1 : Int), natLE8 2),
           ((2 : Int), natLE8 3)], insert 3 (insert 2 {1})⟩)
    ∧ pop_front natCodec
        (⟨[((0 : Int), natLE8 1), ((1 : Int), natLE8 2),
           ((2 : Int), natLE8 3)],
          insert 3 (insert 2 {1})⟩ : HashQueue Nat) false false
      = (POut.ok (some 1),
         ⟨[((1 : Int), natLE8 2), ((2 : Int), natLE8 3)],
          Finset.erase (insert 3 (insert 2 {1})) 1⟩)
    ∧ pop_front natCodec
        (⟨[((1 : Int), natLE8 2), ((2 : Int), natLE8 3)],
          Finset.erase (insert 3 (insert 2 {1})) 1⟩ : HashQueue Nat) false false
      = (POut.ok (some 2),
         ⟨[((2 : Int), natLE8 3)],
          (Finset.erase (insert 3 (insert 2 {1})) 1).erase 2⟩)
    ∧ pop_front natCodec
        (⟨[((2 : Int), natLE8 3)],
          (Finset.erase (insert 3 (insert 2 {1})) 1).erase 2⟩ : HashQueue Nat)
        false false
      = (POut.ok (some 3),
         ⟨[], ((Finset.erase (insert 3 (insert 2 {1})) 1).erase 2).erase 3⟩) :=
  fifo_push_pop_order natCodec "test" 1 2 3 (natLE8 1) (natLE8 2) (natLE8 3)
    (by decide) (by decide) (by decide)
    (by decide) (by decide) (by decide) (by decide) (by decide) (by decide)

/-- A peek call: `front` or `back`. -/
inductive PeekOp where
  | front
  | back

/-- One peek call.  `front` and `back` borrow the queue immutably
(`&self` in the source), so the state threaded to the next call is the
same queue. -/
def peekStep (c : Codec T) (q : HashQueue T) (op : PeekOp) :
    Except HashQueueError (Option T) × HashQueue T :=
  match op with
  | .front => (front c q false, q)
  | .back => (back c q false, q)

/-- The queue state after a sequence of peek calls. -/
def runPeeks (c : Codec T) (q : HashQueue T) (ops : List PeekOp) :
    HashQueue T :=
  ops.foldl (fun s op => (peekStep c s op).2) q

/-- C9: any number of `front`/`back` calls leaves the queue state — durable
region and in-memory set — unchanged, so a subsequent `pop_front` or
`pop_back` returns exactly what it would have returned without the peeks,
and the element count is unchanged. -/
theorem peeks_preserve_state {T : Type} [DecidableEq T]
    (c : Codec T) (q : HashQueue T) (ops : List PeekOp) :
    runPeeks c q ops = q
    ∧ pop_front c (runPeeks c q ops) false false = pop_front c q false false
    ∧ pop_back c (runPeeks c q ops) false false = pop_back c q false false
    ∧ (runPeeks c q ops).set.card = q.set.card := by
  have hstep : ∀ (s : HashQueue T) (op : PeekOp), (peekStep c s op).2 = s :=
    fun s op => by cases op <;> rfl
  have hrun : ∀ (l : List PeekOp) (s : HashQueue T), runPeeks c s l = s := by
    intro l
    induction l with
    | nil => intro s; rfl
    | cons op rest ih =>
      intro s
      unfold runPeeks at *
      rw [List.foldl_cons, hstep]
      exact ih s
  exact ⟨hrun ops q, by rw [hrun ops q], by rw [hrun ops q],
    by rw [hrun ops q]⟩

end HashQueueModel
